import Mathlib

/-!
Shallow embedding of the response-analysis orchestration layer of the
AI_Interview_Preparation_System repository
(src/utils/analyze_candidate.py and src/utils/llm_call.py).

Python values are modelled by `PyValue`; Python exceptions by `PyExc`;
fallible Python code returns `Except PyExc _`.  Python floats are modelled
exactly as decimal numbers `num / 10 ^ den10` (the score values the
validation logic handles are small decimals, where binary-float rounding
plays no role).  Blocking gateway latency is modelled by a duration map
from prompt to seconds (as rationals); the asyncio `gather`/`wait_for`
join of the combined operation is modelled by an explicit join-time
computation.
-/

namespace AIPrep

/-- Python character lists: we model Python `str` values that the parsing
pipeline manipulates as `List Char`. -/
abbrev Chars := List Char

/-- Model of the Python value space the orchestrator manipulates
(whatever `json.loads` can produce, plus `None` and strings).
A Python float is an exact decimal `num / 10 ^ den10`. -/
inductive PyValue where
  | none : PyValue
  | bool (b : Bool) : PyValue
  | int (n : Int) : PyValue
  | float (num : Int) (den10 : Nat) : PyValue
  | str (s : String) : PyValue
  | list (xs : List PyValue) : PyValue
  | dict (kvs : List (String × PyValue)) : PyValue

/-- Model of the Python exceptions that flow through this code:
`InterviewAnalysisError` (the repository's own class), `RuntimeError`
(raised by `get_response_from_llm`), `asyncio.TimeoutError`,
and the builtin error kinds dependencies may raise.  `other` covers an
arbitrary exception raised by an external collaborator. -/
inductive PyExc where
  | interviewAnalysisError (msg : String) : PyExc
  | runtimeError (msg : String) : PyExc
  | valueError (msg : String) : PyExc
  | typeError (msg : String) : PyExc
  | timeoutError : PyExc
  | other (kind : String) (msg : String) : PyExc

/-- Python `str(e)` on an exception: the message (for `asyncio.TimeoutError()`
the empty string). -/
def strExc : PyExc → String
  | .interviewAnalysisError m => m
  | .runtimeError m => m
  | .valueError m => m
  | .typeError m => m
  | .timeoutError => ""
  | .other _ m => m

/-- Single quote character (apostrophe), as used by Python `repr` of strings. -/
def sq : String := "\x27"

/-- Python `repr(s)` for the simple strings that occur in this system
(model: always single-quoted, no escaping — the strings embedded in the
error messages of the claims contain no quotes or backslashes). -/
def strRepr (s : String) : String := sq ++ s ++ sq

/-- Decimal digit characters of a natural number. -/
def natDigits (n : Nat) : String := toString n

/-- Python `repr` of our exact-decimal model of a float: `num / 10 ^ den10`
printed with an explicit decimal point (`7.5`, `7.0`).  Model
simplification: no trailing-zero trimming; unobservable in the claims
(every message a claim fixes contains no float). -/
def floatRepr (num : Int) (den10 : Nat) : String :=
  let sign := if num < 0 then "-" else ""
  let a := num.natAbs
  if den10 = 0 then sign ++ natDigits a ++ ".0"
  else
    let p : Nat := 10 ^ den10
    sign ++ natDigits (a / p) ++ "." ++
      (let frac := natDigits (a % p)
       let pad := String.mk (List.replicate (den10 - frac.length) ('0'))
       pad ++ frac)

/-- Python `repr(v)`. -/
def pyRepr : PyValue → String
  | .none => "None"
  | .bool true => "True"
  | .bool false => "False"
  | .int n => toString n
  | .float num den10 => floatRepr num den10
  | .str s => strRepr s
  | .list xs =>
      "[" ++ String.intercalate ", " (xs.attach.map (fun x => pyRepr x.1)) ++ "]"
  | .dict kvs =>
      "\x7b" ++
        String.intercalate ", "
          (kvs.attach.map (fun kv => strRepr kv.1.1 ++ ": " ++ pyRepr kv.1.2)) ++
      "\x7d"
termination_by v => sizeOf v
decreasing_by
  · have := List.sizeOf_lt_of_mem x.2
    simp only [PyValue.list.sizeOf_spec]
    omega
  · have h1 := List.sizeOf_lt_of_mem kv.2
    have h2 : sizeOf kv.1.2 < sizeOf kv.1 := by
      cases kv.1 with
      | mk a b => simp only [Prod.mk.sizeOf_spec]; omega
    simp only [PyValue.dict.sizeOf_spec]
    omega

/-- Python `str(v)` / f-string interpolation of a value: strings are shown
verbatim, everything else via `repr`-style printing. -/
def pyStr (v : PyValue) : String :=
  match v with
  | .str s => s
  | v => pyRepr v

/-- Python `str(type(v))`, e.g. `<class 'int'>`. -/
def pyTypeName (v : PyValue) : String :=
  let n := match v with
    | .none => "NoneType"
    | .bool _ => "bool"
    | .int _ => "int"
    | .float _ _ => "float"
    | .str _ => "str"
    | .list _ => "list"
    | .dict _ => "dict"
  "<class " ++ sq ++ n ++ sq ++ ">"

/-- Python `str` of a list of strings, e.g. `['feedback', 'score']`
(as produced by the f-string `f"Missing fields: {missing}"`). -/
def strListRepr (xs : List String) : String :=
  "[" ++ String.intercalate ", " (xs.map strRepr) ++ "]"

/-- `k in d` on a Python dict modelled as an association list. -/
def hasKey (kvs : List (String × PyValue)) (k : String) : Bool :=
  kvs.any (fun kv => kv.1 == k)

/-- `d[k]` lookup (callers in the source only use it under a `hasKey` guard). -/
def dictGet (kvs : List (String × PyValue)) (k : String) : PyValue :=
  match kvs.find? (fun kv => kv.1 == k) with
  | Option.some kv => kv.2
  | Option.none => PyValue.none

/-- CPython dict insertion `d[k] = v`: updates in place if the key exists
(keeping its position), otherwise appends. -/
def dictInsert (kvs : List (String × PyValue)) (k : String) (v : PyValue) :
    List (String × PyValue) :=
  if hasKey kvs k then kvs.map (fun kv => if kv.1 == k then (k, v) else kv)
  else kvs ++ [(k, v)]

/-- JSON whitespace (RFC 8259: space, tab, line feed, carriage return). -/
def isJsonWs (c : Char) : Bool :=
  c = ' ' || c = '\t' || c = '\n' || c = '\r'

/-- Python `str.isspace` characters relevant here (ASCII whitespace). -/
def isPySpace (c : Char) : Bool :=
  c = ' ' || c = '\t' || c = '\n' || c = '\r' || c = '\x0b' || c = '\x0c'

/-- Skip JSON whitespace. -/
def skipWs : Chars → Chars
  | [] => []
  | c :: r => if isJsonWs c then skipWs r else c :: r

/-- Python `str.strip()`: drop leading and trailing whitespace. -/
def pyStrip (s : Chars) : Chars :=
  ((s.dropWhile isPySpace).reverse.dropWhile isPySpace).reverse

/-- Fueled worker for `removeAll`; fuel `s.length` always suffices. -/
def removeAllF (pat : Chars) : Nat → Chars → Chars
  | 0, s => s
  | fuel + 1, s =>
      if pat ≠ [] && pat.isPrefixOf s then
        removeAllF pat fuel (s.drop pat.length)
      else
        match s with
        | [] => []
        | c :: r => c :: removeAllF pat fuel r

/-- Python `str.replace(pat, "")` (used with `"```json"` and `"```"`):
delete every non-overlapping occurrence of `pat`, scanning left to right. -/
def removeAll (pat : Chars) (s : Chars) : Chars :=
  removeAllF pat s.length s

/-- Index of the first occurrence of `c` (Python `str.index`, total version;
callers use it only when `c` is present). -/
def firstIdx (c : Char) : Chars → Nat
  | [] => 0
  | x :: r => if x = c then 0 else firstIdx c r + 1

/-- Index of the last occurrence of `c` (Python `str.rindex`, total version;
callers use it only when `c` is present). -/
def lastIdx (c : Char) (s : Chars) : Nat :=
  s.length - 1 - firstIdx c s.reverse

/-- Python slice `s[a:b]` for `0 ≤ a, b`. -/
def pySlice (s : Chars) (a b : Nat) : Chars := (s.drop a).take (b - a)

/-! ## Model of `json.loads`

A recursive-descent JSON parser over `Chars`, producing `PyValue`
(`json.loads` maps JSON objects to dicts, arrays to lists, numbers to
`int`/`float` by the presence of a fraction or exponent, and keeps the
last value of a duplicated object key).  Recursion is fueled; the top
entry point supplies fuel `s.length + 1`, which bounds the nesting
depth, since every recursive call consumes at least one character. -/

/-- Value of a hexadecimal digit. -/
def hexVal (c : Char) : Option Nat :=
  if '0' ≤ c ∧ c ≤ '9' then Option.some (c.toNat - '0'.toNat)
  else if 'a' ≤ c ∧ c ≤ 'f' then Option.some (c.toNat - 'a'.toNat + 10)
  else if 'A' ≤ c ∧ c ≤ 'F' then Option.some (c.toNat - 'A'.toNat + 10)
  else Option.none

/-- Single-character JSON string escapes. -/
def escChar : Char → Option Char
  | '"' => Option.some '"'
  | '\\' => Option.some '\\'
  | '/' => Option.some '/'
  | 'n' => Option.some '\n'
  | 't' => Option.some '\t'
  | 'r' => Option.some '\r'
  | 'b' => Option.some '\x08'
  | 'f' => Option.some '\x0c'
  | _ => Option.none

/-- Parse the body of a JSON string (after the opening quote), returning
its characters and the remainder after the closing quote.  `\uXXXX`
escapes become the code point directly (surrogate pairing is not
modelled; no claim involves it). -/
def parseStringBody : Chars → Option (Chars × Chars)
  | [] => Option.none
  | '"' :: r => Option.some ([], r)
  | '\\' :: 'u' :: h1 :: h2 :: h3 :: h4 :: r =>
      (match hexVal h1, hexVal h2, hexVal h3, hexVal h4 with
       | Option.some a, Option.some b, Option.some c, Option.some d =>
           (parseStringBody r).map
             (fun p => (Char.ofNat (((a * 16 + b) * 16 + c) * 16 + d) :: p.1, p.2))
       | _, _, _, _ => Option.none)
  | '\\' :: e :: r =>
      (match escChar e with
       | Option.some c => (parseStringBody r).map (fun p => (c :: p.1, p.2))
       | Option.none => Option.none)
  | c :: r =>
      if c.toNat < 32 then Option.none
      else (parseStringBody r).map (fun p => (c :: p.1, p.2))

/-- Numeric value of a digit string. -/
def digitsVal (ds : Chars) : Nat :=
  ds.foldl (fun acc c => acc * 10 + (c.toNat - '0'.toNat)) 0

/-- Fraction part of a JSON number: `.digits` (at least one digit), or
nothing. -/
def parseFracPart : Chars → Option (Chars × Chars)
  | '.' :: r =>
      let p := r.span (fun d => d.isDigit)
      if p.1.isEmpty then Option.none else Option.some (p.1, p.2)
  | s => Option.some ([], s)

/-- Exponent part of a JSON number: `e`/`E`, optional sign, digits.
Returns `none` inside the option pair when no exponent marker is present. -/
def parseExpPart (s : Chars) : Option (Option Int × Chars) :=
  match s with
  | c :: r =>
      if c = 'e' ∨ c = 'E' then
        let p : Int × Chars := match r with
          | '+' :: rr => (1, rr)
          | '-' :: rr => (-1, rr)
          | _ => (1, r)
        let q := p.2.span (fun d => d.isDigit)
        if q.1.isEmpty then Option.none
        else Option.some (Option.some (p.1 * (digitsVal q.1 : Int)), q.2)
      else Option.some (Option.none, c :: r)
  | [] => Option.some (Option.none, [])

/-- Build the float value `m * 10 ^ (e - fracLen)` as an exact decimal. -/
def mkFloat (m : Int) (fracLen : Nat) (e : Int) : PyValue :=
  let k : Int := e - fracLen
  if 0 ≤ k then PyValue.float (m * (10 : Int) ^ k.toNat) 0
  else PyValue.float m (-k).toNat

/-- Parse a JSON number (int when no fraction and no exponent, float
otherwise; leading zeros rejected as in RFC 8259). -/
def parseNumberLit (s : Chars) : Option (PyValue × Chars) :=
  let p : Bool × Chars := match s with
    | '-' :: r => (true, r)
    | _ => (false, s)
  let q := p.2.span (fun d => d.isDigit)
  if q.1.isEmpty then Option.none
  else if 1 < q.1.length ∧ q.1.head? = Option.some '0' then Option.none
  else
    match parseFracPart q.2 with
    | Option.none => Option.none
    | Option.some (fracDs, r2) =>
      match parseExpPart r2 with
      | Option.none => Option.none
      | Option.some (expOpt, r3) =>
        let sgn : Int := if p.1 then -1 else 1
        let mant : Int := sgn * (digitsVal (q.1 ++ fracDs) : Int)
        match expOpt with
        | Option.none =>
            if fracDs.isEmpty then Option.some (PyValue.int mant, r3)
            else Option.some (mkFloat mant fracDs.length 0, r3)
        | Option.some e => Option.some (mkFloat mant fracDs.length e, r3)

mutual

/-- Parse one JSON value.  The `'{'` branch always produces a `.dict`. -/
def parseValue : Nat → Chars → Option (PyValue × Chars)
  | 0, _ => Option.none
  | _ + 1, [] => Option.none
  | fuel + 1, c :: r =>
    if c = '{' then
      match skipWs r with
      | '}' :: r2 => Option.some (PyValue.dict [], r2)
      | r1 =>
          match parseMembers fuel r1 [] with
          | Option.some (kvs, r2) => Option.some (PyValue.dict kvs, r2)
          | Option.none => Option.none
    else if c = '[' then
      match skipWs r with
      | ']' :: r2 => Option.some (PyValue.list [], r2)
      | r1 =>
          match parseElems fuel r1 [] with
          | Option.some (xs, r2) => Option.some (PyValue.list xs, r2)
          | Option.none => Option.none
    else if c = '"' then
      match parseStringBody r with
      | Option.some (cs, r2) => Option.some (PyValue.str (String.mk cs), r2)
      | Option.none => Option.none
    else if c = 't' then
      match r with
      | 'r' :: 'u' :: 'e' :: r2 => Option.some (PyValue.bool true, r2)
      | _ => Option.none
    else if c = 'f' then
      match r with
      | 'a' :: 'l' :: 's' :: 'e' :: r2 => Option.some (PyValue.bool false, r2)
      | _ => Option.none
    else if c = 'n' then
      match r with
      | 'u' :: 'l' :: 'l' :: r2 => Option.some (PyValue.none, r2)
      | _ => Option.none
    else parseNumberLit (c :: r)

/-- Parse the members of a JSON object (after `{` and any whitespace,
when the object is not empty). -/
def parseMembers : Nat → Chars → List (String × PyValue) →
    Option (List (String × PyValue) × Chars)
  | 0, _, _ => Option.none
  | fuel + 1, s, acc =>
    match skipWs s with
    | '"' :: r =>
      (match parseStringBody r with
       | Option.some (key, r1) =>
         (match skipWs r1 with
          | ':' :: r2 =>
            (match parseValue fuel (skipWs r2) with
             | Option.some (v, r3) =>
               let acc2 := dictInsert acc (String.mk key) v
               (match skipWs r3 with
                | ',' :: r4 => parseMembers fuel r4 acc2
                | '}' :: r4 => Option.some (acc2, r4)
                | _ => Option.none)
             | Option.none => Option.none)
          | _ => Option.none)
       | Option.none => Option.none)
    | _ => Option.none

/-- Parse the elements of a JSON array (after `[` and any whitespace,
when the array is not empty). -/
def parseElems : Nat → Chars → List PyValue → Option (List PyValue × Chars)
  | 0, _, _ => Option.none
  | fuel + 1, s, acc =>
    match parseValue fuel (skipWs s) with
    | Option.some (v, r1) =>
      (match skipWs r1 with
       | ',' :: r2 => parseElems fuel r2 (acc ++ [v])
       | ']' :: r2 => Option.some (acc ++ [v], r2)
       | _ => Option.none)
    | Option.none => Option.none

end

/-- Model of Python `json.loads` on our character lists: parse one JSON
document, allowing surrounding whitespace, requiring all input consumed;
`Option.none` models a raised `json.JSONDecodeError`. -/
def json_loads (s : Chars) : Option PyValue :=
  match parseValue (s.length + 1) (skipWs s) with
  | Option.some (v, rest) =>
      if (skipWs rest).isEmpty then Option.some v else Option.none
  | Option.none => Option.none

/-! ## Model of Python `float()` coercion -/

/-- Python `float(s)` on a string: optional surrounding whitespace and
sign, decimal digits with an optional point (digits required on at least
one side) and an optional exponent.  (`inf`/`nan` literals, underscores
and overflow are not modelled; no claim involves them.)  The result is
the exact decimal `num / 10 ^ den10`. -/
def floatLit (s : Chars) : Option (Int × Nat) :=
  let p : Bool × Chars := match s with
    | '-' :: r => (true, r)
    | '+' :: r => (false, r)
    | _ => (false, s)
  let q := p.2.span (fun c => c.isDigit)
  let fr : Option (Chars × Chars) := match q.2 with
    | '.' :: rf =>
        let w := rf.span (fun c => c.isDigit)
        Option.some (w.1, w.2)
    | _ => Option.some ([], q.2)
  match fr with
  | Option.none => Option.none
  | Option.some (fracDs, r2) =>
    if q.1.isEmpty ∧ fracDs.isEmpty then Option.none
    else
      match parseExpPart r2 with
      | Option.none => Option.none
      | Option.some (expOpt, r3) =>
        if ¬ r3.isEmpty then Option.none
        else
          let sgn : Int := if p.1 then -1 else 1
          let mant : Int := sgn * (digitsVal (q.1 ++ fracDs) : Int)
          let k : Int := expOpt.getD 0 - fracDs.length
          if 0 ≤ k then Option.some (mant * (10 : Int) ^ k.toNat, 0)
          else Option.some (mant, (-k).toNat)

/-- Python `float(v)` on a value: numbers and booleans coerce, strings
parse as decimal literals, everything else raises (modelled as
`Option.none`). -/
def pyFloat : PyValue → Option (Int × Nat)
  | PyValue.int n => Option.some (n, 0)
  | PyValue.float m d => Option.some (m, d)
  | PyValue.bool b => Option.some (if b then 1 else 0, 0)
  | PyValue.str s => floatLit (pyStrip s.data)
  | _ => Option.none

/-- The check `0 <= score <= 10` on the exact decimal `num / 10 ^ den10`. -/
def scoreInRange (f : Int × Nat) : Prop :=
  0 ≤ f.1 ∧ f.1 ≤ 10 * (10 : Int) ^ f.2

instance (f : Int × Nat) : Decidable (scoreInRange f) := by
  unfold scoreInRange; infer_instance

/-! ## The source functions

`src/utils/llm_call.py` and `src/utils/analyze_candidate.py`.  The LLM
transport (`genai` model call) and the prompt templates
(`utils.prompts`, a file not present in the sources) are external
collaborators; they appear as function parameters (`api`,
`renderNextQuestion` / `renderFeedback`).  Per the spec, prompt
rendering is a fallible pure-function dependency, so a renderer returns
`Except PyExc String`. -/

/-- `llm_call.parse_json_response`: strip code fences (`"```json"` first,
then `"```"`) and whitespace, slice from the first `{` to the last `}`,
and `json.loads` that slice; any failure (including the absence of a
brace, and a `json.loads` error) yields Python `None`. -/
def parse_json_response (response : String) : PyValue :=
  let clean : Chars :=
    pyStrip (removeAll ("```".data) (removeAll ("```json".data) response.data))
  if '{' ∈ clean ∧ '}' ∈ clean then
    let json_str := pySlice clean (firstIdx '{' clean) (lastIdx '}' clean + 1)
    match json_loads json_str with
    | Option.some v => v
    | Option.none => PyValue.none
  else PyValue.none

/-- `analyze_candidate._safe_json_parse`: `None` raises; a dict is
returned unchanged; a string is stripped, parsed directly, then by
brace-extraction (a missing brace makes `.index`/`.rindex` raise, caught
by the same handler); any other type raises. -/
def _safe_json_parse (data : PyValue) : Except PyExc PyValue :=
  match data with
  | PyValue.none =>
      Except.error
        (PyExc.interviewAnalysisError "LLM returned None instead of valid JSON")
  | PyValue.dict kvs => Except.ok (PyValue.dict kvs)
  | PyValue.str s =>
      let d := pyStrip s.data
      match json_loads d with
      | Option.some v => Except.ok v
      | Option.none =>
          if '{' ∈ d ∧ '}' ∈ d then
            match json_loads (pySlice d (firstIdx '{' d) (lastIdx '}' d + 1)) with
            | Option.some v => Except.ok v
            | Option.none =>
                Except.error
                  (PyExc.interviewAnalysisError
                    ("Invalid JSON from LLM: " ++ String.mk d))
          else
            Except.error
              (PyExc.interviewAnalysisError
                ("Invalid JSON from LLM: " ++ String.mk d))
  | v =>
      Except.error
        (PyExc.interviewAnalysisError
          ("LLM returned unsupported format: " ++ pyTypeName v))

/-- The normalizer of the spec: the composition the pipeline applies to
raw gateway text — `parse_json_response` followed by `_safe_json_parse`
(the two consecutive steps inside `_make_llm_call_async`). -/
def normalize (raw : String) : Except PyExc PyValue :=
  _safe_json_parse (parse_json_response raw)

/-- `llm_call.get_response_from_llm`: invoke the transport (`api`
models the `genai` call) and wrap any of its failures in a
`RuntimeError` carrying the cause. -/
def get_response_from_llm (api : String → Except PyExc String)
    (prompt : String) : Except PyExc String :=
  match api prompt with
  | Except.ok t => Except.ok t
  | Except.error e =>
      Except.error (PyExc.runtimeError ("Gemini API call failed: " ++ strExc e))

/-- `analyze_candidate._make_llm_call_async`: gateway call, then
`parse_json_response`, then `_safe_json_parse`; every failure re-raised
as `InterviewAnalysisError` with the cause embedded. -/
def _make_llm_call_async (api : String → Except PyExc String)
    (prompt : String) : Except PyExc PyValue :=
  let inner : Except PyExc PyValue :=
    match get_response_from_llm api prompt with
    | Except.error e => Except.error e
    | Except.ok response_text =>
        let response_json := parse_json_response response_text
        _safe_json_parse response_json
  match inner with
  | Except.ok v => Except.ok v
  | Except.error e =>
      Except.error
        (PyExc.interviewAnalysisError ("Failed to get LLM response: " ++ strExc e))

/-- `analyze_candidate.get_next_question`.  `renderNextQuestion` models
`next_question_generation.format(...)` (the template file is not in the
sources; per the spec it is a fallible external collaborator). -/
def get_next_question (api : String → Except PyExc String)
    (renderNextQuestion : String → String → String → String → Except PyExc String)
    (previous_question candidate_response resume_highlights job_description : String) :
    Except PyExc PyValue :=
  let inner : Except PyExc PyValue :=
    match renderNextQuestion previous_question candidate_response
        resume_highlights job_description with
    | Except.error e => Except.error e
    | Except.ok final_prompt =>
      match _make_llm_call_async api final_prompt with
      | Except.error e => Except.error e
      | Except.ok response =>
        match response with
        | PyValue.dict m =>
            if hasKey m "next_question" then Except.ok (dictGet m "next_question")
            else
              Except.error
                (PyExc.interviewAnalysisError
                  ("Missing \x27next_question\x27 in LLM output: " ++
                    pyStr (PyValue.dict m)))
        | v =>
            Except.error
              (PyExc.interviewAnalysisError ("LLM returned non-dict: " ++ pyStr v))
  match inner with
  | Except.ok v => Except.ok v
  | Except.error e =>
      Except.error
        (PyExc.interviewAnalysisError ("Question generation failed: " ++ strExc e))

/-- `analyze_candidate.get_feedback_of_candidate_response`.
`renderFeedback` models `feedback_generation.format(...)`.  The score
validation mirrors the source exactly: the `float` coercion and the
range test sit in one `try` block whose handler replaces any failure
(including the range error raised inside the block) with the
`"Score must be a number"` error. -/
def get_feedback_of_candidate_response (api : String → Except PyExc String)
    (renderFeedback : String → String → String → String → Except PyExc String)
    (question candidate_response job_description resume_highlights : String) :
    Except PyExc PyValue :=
  let inner : Except PyExc PyValue :=
    match renderFeedback question candidate_response job_description
        resume_highlights with
    | Except.error e => Except.error e
    | Except.ok final_prompt =>
      match _make_llm_call_async api final_prompt with
      | Except.error e => Except.error e
      | Except.ok response =>
        match response with
        | PyValue.dict m =>
          let missing := (["feedback", "score"]).filter (fun f => ! hasKey m f)
          if ¬ missing.isEmpty then
            Except.error
              (PyExc.interviewAnalysisError ("Missing fields: " ++ strListRepr missing))
          else
            let scoreCheck : Except PyExc Unit :=
              match pyFloat (dictGet m "score") with
              | Option.none =>
                  Except.error (PyExc.typeError "float() argument is not a number")
              | Option.some fv =>
                  if ¬ scoreInRange fv then
                    Except.error
                      (PyExc.interviewAnalysisError
                        ("Score out of range: " ++ floatRepr fv.1 fv.2))
                  else Except.ok ()
            match scoreCheck with
            | Except.error _ =>
                Except.error
                  (PyExc.interviewAnalysisError
                    ("Score must be a number: " ++ pyStr (dictGet m "score")))
            | Except.ok _ =>
                Except.ok
                  (PyValue.dict
                    [("feedback", dictGet m "feedback"),
                     ("score", dictGet m "score")])
        | v =>
            Except.error
              (PyExc.interviewAnalysisError ("Invalid feedback response: " ++ pyStr v))
  match inner with
  | Except.ok v => Except.ok v
  | Except.error e =>
      Except.error
        (PyExc.interviewAnalysisError ("Feedback generation failed: " ++ strExc e))

/-! ## Timing model of the combined operation

Each sub-call performs exactly one blocking gateway call (through the
worker pool, whose 4 workers always accommodate the 2 tasks), so a
task's completion time is the gateway latency of its rendered prompt
(`dur`), and 0 when rendering fails before the gateway is reached; the
synchronous parsing/validation steps take no modelled time.
`asyncio.gather` (default `return_exceptions=False`) raises the first
task exception as soon as it occurs and otherwise returns, in task-list
order, when the slower task finishes; `asyncio.wait_for` raises
`asyncio.TimeoutError` if that join event has not happened by the
deadline. -/

/-- Completion time of one sub-call: its gateway latency, or 0 when its
prompt rendering fails before the gateway call. -/
def taskTime (render : Except PyExc String) (dur : String → Rat) : Rat :=
  match render with
  | Except.error _ => 0
  | Except.ok p => dur p

/-- The time at which `gather` of the two tasks completes or raises:
the first failure time when a task fails, otherwise the later success
time. -/
def gatherJoinTime (fb nq : Except PyExc PyValue) (tF tN : Rat) : Rat :=
  match fb, nq with
  | Except.error _, Except.error _ => if tF ≤ tN then tF else tN
  | Except.error _, Except.ok _ => tF
  | Except.ok _, Except.error _ => tN
  | Except.ok _, Except.ok _ => if tF ≤ tN then tN else tF

/-- `analyze_candidate.analyze_candidate_response_and_generate_new_question`:
run the feedback and next-question sub-calls concurrently (note the two
argument orders), join them under `timeout` seconds (Python default
30.0), return `(next_question, feedback)`; a deadline hit raises the
timeout `InterviewAnalysisError`, any other failure is re-wrapped with
its message. -/
def analyze_candidate_response_and_generate_new_question
    (api : String → Except PyExc String) (dur : String → Rat)
    (renderFeedback renderNextQuestion :
      String → String → String → String → Except PyExc String)
    (question candidate_response job_description resume_highlights : String)
    (timeout : Rat) : Except PyExc (PyValue × PyValue) :=
  let feedback := get_feedback_of_candidate_response api renderFeedback
    question candidate_response job_description resume_highlights
  let next_question := get_next_question api renderNextQuestion
    question candidate_response resume_highlights job_description
  let tF := taskTime
    (renderFeedback question candidate_response job_description resume_highlights) dur
  let tN := taskTime
    (renderNextQuestion question candidate_response resume_highlights job_description) dur
  if timeout < gatherJoinTime feedback next_question tF tN then
    Except.error (PyExc.interviewAnalysisError "LLM operations timed out")
  else
    match feedback, next_question with
    | Except.ok f, Except.ok n => Except.ok (n, f)
    | Except.error e, Except.error e2 =>
        Except.error
          (PyExc.interviewAnalysisError
            ("Response analysis failed: " ++ strExc (if tF ≤ tN then e else e2)))
    | Except.error e, Except.ok _ =>
        Except.error
          (PyExc.interviewAnalysisError ("Response analysis failed: " ++ strExc e))
    | Except.ok _, Except.error e =>
        Except.error
          (PyExc.interviewAnalysisError ("Response analysis failed: " ++ strExc e))

/-! ## Concrete collaborators used by the witnesses -/

/-- A renderer that always succeeds with prompt `"P"`. -/
def renderW : String → String → String → String → Except PyExc String :=
  fun _ _ _ _ => Except.ok "P"

/-- A gateway returning fixed raw text for every prompt. -/
def apiConst (t : String) : String → Except PyExc String :=
  fun _ => Except.ok t

/-! ## Claims about `get_feedback_of_candidate_response` and
`get_next_question` -/

/-- Associativity of string concatenation, used to normalize the error
messages built by the wrapping handlers. -/
theorem strAppend_assoc (a b c : String) : a ++ (b ++ c) = a ++ b ++ c := by
  cases a with
  | mk xa =>
    cases b with
    | mk xb =>
      cases c with
      | mk xc => exact congrArg String.mk (List.append_assoc xa xb xc).symm

/-- **C5.** With a normalized mapping `m` from the gateway, whenever the
list of required keys (`feedback`, `score`) missing from `m` is
nonempty, `get_feedback_of_candidate_response` fails with a single
`InterviewAnalysisError` whose message lists that whole list of missing
keys (not just the first). -/
theorem claim5_missing_fields (api : String → Except PyExc String)
    (render : String → String → String → String → Except PyExc String)
    (q cr jd rh p : String) (m : List (String × PyValue))
    (hr : render q cr jd rh = Except.ok p)
    (hm : _make_llm_call_async api p = Except.ok (PyValue.dict m))
    (hmiss : (["feedback", "score"]).filter (fun f => ! hasKey m f) ≠ []) :
    get_feedback_of_candidate_response api render q cr jd rh =
      Except.error
        (PyExc.interviewAnalysisError
          ("Feedback generation failed: Missing fields: " ++
            strListRepr ((["feedback", "score"]).filter (fun f => ! hasKey m f)))) := by
  have hne : ((["feedback", "score"]).filter (fun f => ! hasKey m f)).isEmpty = false := by
    cases hfilter : (["feedback", "score"]).filter (fun f => ! hasKey m f) with
    | nil => exact absurd hfilter hmiss
    | cons a l => simp [List.isEmpty]
  simp only [get_feedback_of_candidate_response, hr, hm, hne, strExc]
  rw [if_pos (by decide)]
  simp only [strAppend_assoc]
  rfl

/-- **C5 witness.** When the gateway returns `{}`, the error lists both
`feedback` and `score`. -/
theorem claim5_witness :
    get_feedback_of_candidate_response (apiConst ("\x7b\x7d")) renderW "q" "c" "j" "r" =
      Except.error
        (PyExc.interviewAnalysisError
          ("Feedback generation failed: Missing fields: [\x27feedback\x27, \x27score\x27]")) := by
  have h := claim5_missing_fields (apiConst ("\x7b\x7d")) renderW "q" "c" "j" "r" "P" []
    rfl rfl (by decide)
  simpa [strListRepr, strRepr, sq, hasKey, String.intercalate] using h

/-- Outcome of `get_feedback_of_candidate_response` once both required
keys are present: everything now depends only on the score coercion and
range check (helper shared by several claims). -/
theorem feedback_score_phase (api : String → Except PyExc String)
    (render : String → String → String → String → Except PyExc String)
    (q cr jd rh p : String) (m : List (String × PyValue))
    (hr : render q cr jd rh = Except.ok p)
    (hm : _make_llm_call_async api p = Except.ok (PyValue.dict m))
    (hf : hasKey m "feedback" = true) (hs : hasKey m "score" = true) :
    get_feedback_of_candidate_response api render q cr jd rh =
      (match pyFloat (dictGet m "score") with
       | Option.none =>
           Except.error
             (PyExc.interviewAnalysisError
               ("Feedback generation failed: Score must be a number: " ++
                 pyStr (dictGet m "score")))
       | Option.some fv =>
           if scoreInRange fv then
             Except.ok
               (PyValue.dict
                 [("feedback", dictGet m "feedback"), ("score", dictGet m "score")])
           else
             Except.error
               (PyExc.interviewAnalysisError
                 ("Feedback generation failed: Score must be a number: " ++
                   pyStr (dictGet m "score")))) := by
  have hne : ((["feedback", "score"]).filter (fun f => ! hasKey m f)).isEmpty = true := by
    simp [List.filter, hf, hs]
  cases hpf : pyFloat (dictGet m "score") with
  | none =>
    simp only [get_feedback_of_candidate_response, hr, hm, hne, hpf]
    rw [if_neg (by decide)]
    simp only [strAppend_assoc]
    rfl
  | some fv =>
    by_cases hir : scoreInRange fv
    · simp only [get_feedback_of_candidate_response, hr, hm, hne, hpf]
      rw [if_neg (by decide), if_neg (by simpa using hir), if_pos hir]
    · simp only [get_feedback_of_candidate_response, hr, hm, hne, hpf]
      rw [if_neg (by decide), if_pos (by simpa using hir), if_neg hir]
      simp only [strAppend_assoc]
      rfl

/-- **C4.** With a normalized feedback mapping `m` containing both
`feedback` and `score`, the call passes score validation (succeeds) iff
the score value coerces via `float()` to a value in the closed interval
`[0, 10]`; when validation fails, the raised `InterviewAnalysisError`
names the offending value. -/
theorem claim4_score_validation (api : String → Except PyExc String)
    (render : String → String → String → String → Except PyExc String)
    (q cr jd rh p : String) (m : List (String × PyValue))
    (hr : render q cr jd rh = Except.ok p)
    (hm : _make_llm_call_async api p = Except.ok (PyValue.dict m))
    (hf : hasKey m "feedback" = true) (hs : hasKey m "score" = true) :
    ((∃ v, get_feedback_of_candidate_response api render q cr jd rh = Except.ok v) ↔
      (∃ fv, pyFloat (dictGet m "score") = Option.some fv ∧ scoreInRange fv)) ∧
    ((pyFloat (dictGet m "score") = Option.none ∨
        (∃ fv, pyFloat (dictGet m "score") = Option.some fv ∧ ¬ scoreInRange fv)) →
      get_feedback_of_candidate_response api render q cr jd rh =
        Except.error
          (PyExc.interviewAnalysisError
            ("Feedback generation failed: Score must be a number: " ++
              pyStr (dictGet m "score")))) := by
  have base := feedback_score_phase api render q cr jd rh p m hr hm hf hs
  cases hpf : pyFloat (dictGet m "score") with
  | none =>
    rw [hpf] at base
    refine ⟨⟨?_, ?_⟩, ?_⟩
    · rintro ⟨v, hv⟩
      rw [base] at hv
      exact absurd hv (by simp)
    · rintro ⟨fv, hfv, _⟩
      exact absurd hfv (by simp)
    · intro _; exact base
  | some fv =>
    rw [hpf] at base
    dsimp only at base
    by_cases hir : scoreInRange fv
    · rw [if_pos hir] at base
      refine ⟨⟨?_, ?_⟩, ?_⟩
      · intro _; exact ⟨fv, rfl, hir⟩
      · intro _; exact ⟨_, base⟩
      · rintro (hnone | ⟨fv2, hfv2, hir2⟩)
        · exact absurd hnone (by simp)
        · rw [Option.some.injEq] at hfv2
          exact absurd (hfv2 ▸ hir) hir2
    · rw [if_neg hir] at base
      refine ⟨⟨?_, ?_⟩, ?_⟩
      · rintro ⟨v, hv⟩
        rw [base] at hv
        exact absurd hv (by simp)
      · rintro ⟨fv2, hfv2, hir2⟩
        rw [Option.some.injEq] at hfv2
        exact absurd (hfv2 ▸ hir2) hir
      · intro _; exact base

/-- **C4 witness.** Scores `0`, `10`, `7`, `7.5` and `"7"` pass
validation; `"high"`, `11` and `-1` fail, each with the error naming the
offending value. -/
theorem claim4_witness :
    (∃ v, get_feedback_of_candidate_response
        (apiConst ("\x7b\"feedback\": \"ok\", \"score\": 0\x7d")) renderW
        "q" "c" "j" "r" = Except.ok v) ∧
    (∃ v, get_feedback_of_candidate_response
        (apiConst ("\x7b\"feedback\": \"ok\", \"score\": 10\x7d")) renderW
        "q" "c" "j" "r" = Except.ok v) ∧
    (∃ v, get_feedback_of_candidate_response
        (apiConst ("\x7b\"feedback\": \"ok\", \"score\": 7\x7d")) renderW
        "q" "c" "j" "r" = Except.ok v) ∧
    (∃ v, get_feedback_of_candidate_response
        (apiConst ("\x7b\"feedback\": \"ok\", \"score\": 7.5\x7d")) renderW
        "q" "c" "j" "r" = Except.ok v) ∧
    (∃ v, get_feedback_of_candidate_response
        (apiConst ("\x7b\"feedback\": \"ok\", \"score\": \"7\"\x7d")) renderW
        "q" "c" "j" "r" = Except.ok v) ∧
    (get_feedback_of_candidate_response
        (apiConst ("\x7b\"feedback\": \"ok\", \"score\": \"high\"\x7d")) renderW
        "q" "c" "j" "r" =
      Except.error
        (PyExc.interviewAnalysisError
          ("Feedback generation failed: Score must be a number: high"))) ∧
    (get_feedback_of_candidate_response
        (apiConst ("\x7b\"feedback\": \"ok\", \"score\": 11\x7d")) renderW
        "q" "c" "j" "r" =
      Except.error
        (PyExc.interviewAnalysisError
          ("Feedback generation failed: Score must be a number: 11"))) ∧
    (get_feedback_of_candidate_response
        (apiConst ("\x7b\"feedback\": \"ok\", \"score\": -1\x7d")) renderW
        "q" "c" "j" "r" =
      Except.error
        (PyExc.interviewAnalysisError
          ("Feedback generation failed: Score must be a number: -1"))) := by
  refine ⟨?_, ?_, ?_, ?_, ?_, ?_, ?_, ?_⟩
  · exact (claim4_score_validation (apiConst ("\x7b\"feedback\": \"ok\", \"score\": 0\x7d")) renderW "q" "c" "j" "r" "P"
      [("feedback", PyValue.str "ok"), ("score", PyValue.int 0)]
      rfl rfl rfl rfl).1.mpr ⟨(0, 0), rfl, by decide⟩
  · exact (claim4_score_validation (apiConst ("\x7b\"feedback\": \"ok\", \"score\": 10\x7d")) renderW "q" "c" "j" "r" "P"
      [("feedback", PyValue.str "ok"), ("score", PyValue.int 10)]
      rfl rfl rfl rfl).1.mpr ⟨(10, 0), rfl, by decide⟩
  · exact (claim4_score_validation (apiConst ("\x7b\"feedback\": \"ok\", \"score\": 7\x7d")) renderW "q" "c" "j" "r" "P"
      [("feedback", PyValue.str "ok"), ("score", PyValue.int 7)]
      rfl rfl rfl rfl).1.mpr ⟨(7, 0), rfl, by decide⟩
  · exact (claim4_score_validation (apiConst ("\x7b\"feedback\": \"ok\", \"score\": 7.5\x7d")) renderW "q" "c" "j" "r" "P"
      [("feedback", PyValue.str "ok"), ("score", PyValue.float 75 1)]
      rfl rfl rfl rfl).1.mpr ⟨(75, 1), rfl, by decide⟩
  · exact (claim4_score_validation (apiConst ("\x7b\"feedback\": \"ok\", \"score\": \"7\"\x7d")) renderW "q" "c" "j" "r" "P"
      [("feedback", PyValue.str "ok"), ("score", PyValue.str "7")]
      rfl rfl rfl rfl).1.mpr ⟨(7, 0), rfl, by decide⟩
  · have h := (claim4_score_validation (apiConst ("\x7b\"feedback\": \"ok\", \"score\": \"high\"\x7d")) renderW "q" "c" "j" "r" "P"
      [("feedback", PyValue.str "ok"), ("score", PyValue.str "high")]
      rfl rfl rfl rfl).2 (Or.inl rfl)
    simpa [dictGet, pyStr] using h
  · have h := (claim4_score_validation (apiConst ("\x7b\"feedback\": \"ok\", \"score\": 11\x7d")) renderW "q" "c" "j" "r" "P"
      [("feedback", PyValue.str "ok"), ("score", PyValue.int 11)]
      rfl rfl rfl rfl).2 (Or.inr ⟨(11, 0), rfl, by decide⟩)
    simpa [dictGet, pyStr, pyRepr] using h
  · have h := (claim4_score_validation (apiConst ("\x7b\"feedback\": \"ok\", \"score\": -1\x7d")) renderW "q" "c" "j" "r" "P"
      [("feedback", PyValue.str "ok"), ("score", PyValue.int (-1))]
      rfl (by rfl) rfl rfl).2 (Or.inr ⟨(-1, 0), rfl, by decide⟩)
    simpa [dictGet, pyStr, pyRepr] using h

/-- **C8.** When `get_feedback_of_candidate_response` succeeds on a
normalized mapping `m`, the returned value is exactly the two-key
mapping holding `m`'s `feedback` and `score` values — the score in its
original representation (the coerced float is used for validation only)
and no other key of `m` present. -/
theorem claim8_result_shape (api : String → Except PyExc String)
    (render : String → String → String → String → Except PyExc String)
    (q cr jd rh p : String) (m : List (String × PyValue)) (fv : Int × Nat)
    (hr : render q cr jd rh = Except.ok p)
    (hm : _make_llm_call_async api p = Except.ok (PyValue.dict m))
    (hf : hasKey m "feedback" = true) (hs : hasKey m "score" = true)
    (hok : pyFloat (dictGet m "score") = Option.some fv)
    (hir : scoreInRange fv) :
    get_feedback_of_candidate_response api render q cr jd rh =
      Except.ok
        (PyValue.dict
          [("feedback", dictGet m "feedback"), ("score", dictGet m "score")]) := by
  have base := feedback_score_phase api render q cr jd rh p m hr hm hf hs
  rw [hok] at base
  dsimp only at base
  rw [if_pos hir] at base
  exact base

/-- **C8 witness.** With gateway result
`{"feedback": "good", "score": "7", "extra": true}` the returned mapping
is exactly `{"feedback": "good", "score": "7"}` — the string score is
returned uncoerced and the extra key is dropped. -/
theorem claim8_witness :
    get_feedback_of_candidate_response
        (apiConst ("\x7b\"feedback\": \"good\", \"score\": \"7\", \"extra\": true\x7d"))
        renderW "q" "c" "j" "r" =
      Except.ok
        (PyValue.dict
          [("feedback", PyValue.str "good"), ("score", PyValue.str "7")]) := by
  have h := claim8_result_shape
    (apiConst ("\x7b\"feedback\": \"good\", \"score\": \"7\", \"extra\": true\x7d"))
    renderW "q" "c" "j" "r" "P"
    [("feedback", PyValue.str "good"), ("score", PyValue.str "7"),
     ("extra", PyValue.bool true)]
    (7, 0) rfl (by rfl) rfl rfl rfl (by decide)
  simpa [dictGet] using h

/-- The `attach`-free form of `pyRepr` on a dict (helper for evaluating
messages that embed a mapping). -/
theorem attachMapPair (kvs : List (String × PyValue)) :
    kvs.attach.map (fun kv => strRepr kv.1.1 ++ ": " ++ pyRepr kv.1.2) =
      kvs.map (fun kv => strRepr kv.1 ++ ": " ++ pyRepr kv.2) :=
  List.attach_map_coe kvs (fun kv => strRepr kv.1 ++ ": " ++ pyRepr kv.2)

/-- The `attach`-free form of `pyRepr` on a list. -/
theorem attachMapVal (xs : List PyValue) :
    xs.attach.map (fun x => pyRepr x.1) = xs.map pyRepr :=
  List.attach_map_coe xs pyRepr

/-- `repr` of a dict, elementwise. -/
theorem pyRepr_dict (kvs : List (String × PyValue)) :
    pyRepr (PyValue.dict kvs) =
      "\x7b" ++
        String.intercalate ", "
          (kvs.map (fun kv => strRepr kv.1 ++ ": " ++ pyRepr kv.2)) ++
      "\x7d" := by
  rw [pyRepr, attachMapPair]

/-- `repr` of a list, elementwise. -/
theorem pyRepr_list (xs : List PyValue) :
    pyRepr (PyValue.list xs) =
      "[" ++ String.intercalate ", " (xs.map pyRepr) ++ "]" := by
  rw [pyRepr, attachMapVal]

/-- `repr` of a string value. -/
theorem pyRepr_str_eq (s : String) : pyRepr (PyValue.str s) = strRepr s := by
  rw [pyRepr]

/-- `repr` of an int value. -/
theorem pyRepr_int_eq (n : Int) : pyRepr (PyValue.int n) = toString n := by
  rw [pyRepr]

/-- **C9 (amended).** With a normalized mapping `m` from the gateway,
`get_next_question` succeeds iff `m` contains the key `next_question`;
on success it returns that field's value with no transformation of its
content — whatever its Python type, a string exactly when the gateway
supplied one (the source checks only key presence, never the value's
type) — and on a missing key it fails with a descriptive
`InterviewAnalysisError` naming the missing key and showing the
mapping. -/
theorem claim9_next_question_key (api : String → Except PyExc String)
    (render : String → String → String → String → Except PyExc String)
    (pq cr rh jd p : String) (m : List (String × PyValue))
    (hr : render pq cr rh jd = Except.ok p)
    (hm : _make_llm_call_async api p = Except.ok (PyValue.dict m)) :
    ((∃ v, get_next_question api render pq cr rh jd = Except.ok v) ↔
      hasKey m "next_question" = true) ∧
    (hasKey m "next_question" = true →
      get_next_question api render pq cr rh jd =
        Except.ok (dictGet m "next_question")) ∧
    (hasKey m "next_question" = false →
      get_next_question api render pq cr rh jd =
        Except.error
          (PyExc.interviewAnalysisError
            ("Question generation failed: Missing \x27next_question\x27 in LLM output: " ++
              pyStr (PyValue.dict m)))) := by
  cases hk : hasKey m "next_question" with
  | true =>
    have hres : get_next_question api render pq cr rh jd =
        Except.ok (dictGet m "next_question") := by
      simp only [get_next_question, hr, hm, hk]
      rw [if_pos trivial]
    refine ⟨⟨fun _ => rfl, fun _ => ⟨_, hres⟩⟩, fun _ => hres, ?_⟩
    intro hfalse
    exact absurd hfalse (by simp)
  | false =>
    have hres : get_next_question api render pq cr rh jd =
        Except.error
          (PyExc.interviewAnalysisError
            ("Question generation failed: Missing \x27next_question\x27 in LLM output: " ++
              pyStr (PyValue.dict m))) := by
      simp only [get_next_question, hr, hm, hk]
      rw [if_neg (by decide)]
      simp only [strAppend_assoc]
      rfl
    refine ⟨⟨?_, ?_⟩, ?_, fun _ => hres⟩
    · rintro ⟨v, hv⟩
      rw [hres] at hv
      exact absurd hv (by simp)
    · intro htrue
      exact absurd htrue (by simp)
    · intro htrue
      exact absurd htrue (by simp)

/-- Discriminator for Python string values. -/
def isPyStr : PyValue → Bool
  | PyValue.str _ => true
  | _ => false

/-- **C9 counterexample.** The claim's assertion that the returned
`next_question` value "is a string" is false of the code: on gateway
output `{"next_question": 5}` the operation succeeds and returns the
integer 5 — `get_next_question` checks only that the key is present,
never the value's type. -/
theorem claim9_counterexample :
    get_next_question (apiConst ("\x7b\"next_question\": 5\x7d")) renderW
        "a" "b" "c" "d" =
      Except.ok (PyValue.int 5) ∧
    isPyStr (PyValue.int 5) = false :=
  ⟨by rfl, rfl⟩

/-- **C9 witness.** On gateway result `{"question": "x"}` (wrong key
name) the operation fails with the descriptive error; on
`{"next_question": "Tell me more."}` it returns that string verbatim. -/
theorem claim9_witness :
    (get_next_question (apiConst ("\x7b\"question\": \"x\"\x7d")) renderW
        "a" "b" "c" "d" =
      Except.error
        (PyExc.interviewAnalysisError
          ("Question generation failed: Missing \x27next_question\x27 in LLM output: \x7b\x27question\x27: \x27x\x27\x7d"))) ∧
    (get_next_question (apiConst ("\x7b\"next_question\": \"Tell me more.\"\x7d")) renderW
        "a" "b" "c" "d" =
      Except.ok (PyValue.str "Tell me more.")) := by
  constructor
  · have h := (claim9_next_question_key (apiConst ("\x7b\"question\": \"x\"\x7d"))
      renderW "a" "b" "c" "d" "P" [("question", PyValue.str "x")]
      rfl (by rfl)).2.2 rfl
    rw [h]
    simp [pyStr, pyRepr_dict, pyRepr_str_eq, strRepr, sq, String.intercalate,
      String.intercalate.go]
  · have h := (claim9_next_question_key
      (apiConst ("\x7b\"next_question\": \"Tell me more.\"\x7d"))
      renderW "a" "b" "c" "d" "P" [("next_question", PyValue.str "Tell me more.")]
      rfl (by rfl)).2.1 rfl
    simpa [dictGet] using h

/-- **C10.** When the score value of a complete feedback mapping coerces
to a float outside `[0, 10]`, the inner `"Score out of range"` error is
caught by the handler of the very `try` block that raised it, and the
caller observes exactly the `"Score must be a number: <value>"` message
(wrapped by the operation handler) instead. -/
theorem claim10_range_error_replaced (api : String → Except PyExc String)
    (render : String → String → String → String → Except PyExc String)
    (q cr jd rh p : String) (m : List (String × PyValue)) (fv : Int × Nat)
    (hr : render q cr jd rh = Except.ok p)
    (hm : _make_llm_call_async api p = Except.ok (PyValue.dict m))
    (hf : hasKey m "feedback" = true) (hs : hasKey m "score" = true)
    (hok : pyFloat (dictGet m "score") = Option.some fv)
    (hir : ¬ scoreInRange fv) :
    get_feedback_of_candidate_response api render q cr jd rh =
      Except.error
        (PyExc.interviewAnalysisError
          ("Feedback generation failed: Score must be a number: " ++
            pyStr (dictGet m "score"))) := by
  have base := feedback_score_phase api render q cr jd rh p m hr hm hf hs
  rw [hok] at base
  dsimp only at base
  rw [if_neg hir] at base
  exact base

/-- Substring test on character lists (used to state that a wording does
not occur in an observable message). -/
def containsSub (pat : Chars) : Chars → Bool
  | [] => pat.isPrefixOf []
  | c :: r => pat.isPrefixOf (c :: r) || containsSub pat r

/-- **C10 witness.** For score `11` the observable message is exactly
`"Feedback generation failed: Score must be a number: 11"`, and the
inner `"Score out of range"` wording does not occur in it. -/
theorem claim10_witness :
    (get_feedback_of_candidate_response
        (apiConst ("\x7b\"feedback\": \"ok\", \"score\": 11\x7d")) renderW
        "w" "x" "y" "z" =
      Except.error
        (PyExc.interviewAnalysisError
          ("Feedback generation failed: Score must be a number: 11"))) ∧
    containsSub ("Score out of range".data)
      ("Feedback generation failed: Score must be a number: 11".data) = false := by
  constructor
  · have h := claim10_range_error_replaced
      (apiConst ("\x7b\"feedback\": \"ok\", \"score\": 11\x7d")) renderW
      "w" "x" "y" "z" "P" [("feedback", PyValue.str "ok"), ("score", PyValue.int 11)]
      (11, 0) rfl (by rfl) rfl rfl rfl (by decide)
    simpa [dictGet, pyStr, pyRepr] using h
  · decide

/-! ## Claims about the combined operation -/

/-- **C6.** When both sub-calls succeed and both finish within the
timeout — whatever their relative completion order — the combined
operation returns exactly `(next-question result, feedback result)`;
the hypotheses name the two sub-calls with the exact per-call argument
orders the source uses (`(question, candidate_response, job_description,
resume_highlights)` for feedback, `(question, candidate_response,
resume_highlights, job_description)` for next-question). -/
theorem claim6_combined_success (api : String → Except PyExc String)
    (dur : String → Rat)
    (renderFeedback renderNextQuestion :
      String → String → String → String → Except PyExc String)
    (q cr jd rh : String) (timeout : Rat) (f n : PyValue)
    (hf : get_feedback_of_candidate_response api renderFeedback q cr jd rh =
      Except.ok f)
    (hn : get_next_question api renderNextQuestion q cr rh jd = Except.ok n)
    (htF : taskTime (renderFeedback q cr jd rh) dur ≤ timeout)
    (htN : taskTime (renderNextQuestion q cr rh jd) dur ≤ timeout) :
    analyze_candidate_response_and_generate_new_question api dur
      renderFeedback renderNextQuestion q cr jd rh timeout =
      Except.ok (n, f) := by
  simp only [analyze_candidate_response_and_generate_new_question, hf, hn,
    gatherJoinTime]
  rw [if_neg]
  by_cases hc : taskTime (renderFeedback q cr jd rh) dur ≤
      taskTime (renderNextQuestion q cr rh jd) dur
  · rw [if_pos hc]; exact not_lt.mpr htN
  · rw [if_neg hc]; exact not_lt.mpr htF

/-- Gateway for the combined-operation witnesses: feedback JSON for the
feedback prompt, next-question JSON otherwise. -/
def apiBoth : String → Except PyExc String := fun p =>
  if p = "PF" then Except.ok ("\x7b\"feedback\": \"good\", \"score\": 7\x7d")
  else Except.ok ("\x7b\"next_question\": \"Next?\"\x7d")

/-- Renderer producing the feedback prompt. -/
def renderFB_W : String → String → String → String → Except PyExc String :=
  fun _ _ _ _ => Except.ok "PF"

/-- Renderer producing the next-question prompt. -/
def renderNQ_W : String → String → String → String → Except PyExc String :=
  fun _ _ _ _ => Except.ok "PN"

/-- Latencies: the next-question gateway round-trip (5s) finishes after
the feedback one (2s). -/
def durSlowNQ : String → Rat := fun p => if p = "PF" then 2 else 5

/-- Latencies: the next-question round-trip takes 40s, the feedback one
1s. -/
def durVerySlowNQ : String → Rat := fun p => if p = "PF" then 1 else 40

/-- **C6 witness.** With the feedback call finishing first, the tuple is
still `(next_question, feedback)`. -/
theorem claim6_witness :
    analyze_candidate_response_and_generate_new_question apiBoth durSlowNQ
      renderFB_W renderNQ_W "q" "c" "j" "r" 30 =
      Except.ok
        (PyValue.str "Next?",
         PyValue.dict [("feedback", PyValue.str "good"), ("score", PyValue.int 7)]) := by
  exact claim6_combined_success apiBoth durSlowNQ renderFB_W renderNQ_W
    "q" "c" "j" "r" 30
    (PyValue.dict [("feedback", PyValue.str "good"), ("score", PyValue.int 7)])
    (PyValue.str "Next?") (by rfl) (by rfl) (by decide) (by decide)

/-- **C7.** Whenever the deadline elapses before the `gather` join of
the two sub-tasks completes (the join happening at the first sub-call
failure, or when the slower of two successful sub-calls finishes), the
combined operation fails with exactly
`InterviewAnalysisError "LLM operations timed out"` — no partial result
is returned. -/
theorem claim7_timeout (api : String → Except PyExc String) (dur : String → Rat)
    (renderFeedback renderNextQuestion :
      String → String → String → String → Except PyExc String)
    (q cr jd rh : String) (timeout : Rat)
    (h : timeout <
      gatherJoinTime
        (get_feedback_of_candidate_response api renderFeedback q cr jd rh)
        (get_next_question api renderNextQuestion q cr rh jd)
        (taskTime (renderFeedback q cr jd rh) dur)
        (taskTime (renderNextQuestion q cr rh jd) dur)) :
    analyze_candidate_response_and_generate_new_question api dur
      renderFeedback renderNextQuestion q cr jd rh timeout =
      Except.error (PyExc.interviewAnalysisError "LLM operations timed out") := by
  simp only [analyze_candidate_response_and_generate_new_question]
  rw [if_pos h]

/-- **C7 witness.** Feedback finishes in 1s, next-question needs 40s,
`timeout = 30`: the operation fails with the timeout error (not with a
partial result and not at 40s). -/
theorem claim7_witness :
    analyze_candidate_response_and_generate_new_question apiBoth durVerySlowNQ
      renderFB_W renderNQ_W "q" "c" "j" "r" 30 =
      Except.error (PyExc.interviewAnalysisError "LLM operations timed out") :=
  claim7_timeout apiBoth durVerySlowNQ renderFB_W renderNQ_W "q" "c" "j" "r" 30
    (by decide)

/-! ## Claim about the error taxonomy -/

/-- The outcome is either a success or an `InterviewAnalysisError` —
no other exception kind. -/
def okOrIAE {a : Type} (r : Except PyExc a) : Prop :=
  (∃ v, r = Except.ok v) ∨
  (∃ msg, r = Except.error (PyExc.interviewAnalysisError msg))

/-- The `try/except Exception: raise InterviewAnalysisError(...)` wrap
pattern only ever lets an `InterviewAnalysisError` escape. -/
theorem wrapOkOrIAE (inner : Except PyExc PyValue) (pre : String) :
    okOrIAE
      (match inner with
       | Except.ok v => Except.ok v
       | Except.error e =>
           Except.error (PyExc.interviewAnalysisError (pre ++ strExc e))) := by
  cases inner with
  | ok v => exact Or.inl ⟨v, rfl⟩
  | error e => exact Or.inr ⟨pre ++ strExc e, rfl⟩

/-- **C1.** All three public operations surface every failure — their
own or a dependency's (prompt rendering, gateway transport, JSON
normalization, validation) — as the single kind
`InterviewAnalysisError`, and the wrapped message embeds the original
cause's message: the first three conjuncts say no other exception type
ever escapes, the remaining ones exhibit the exact wrapped message for a
failing renderer, a failing gateway transport, a `None` normalization
result, and a sub-call failure inside the combined operation. -/
theorem claim1_single_error_kind (api : String → Except PyExc String)
    (dur : String → Rat)
    (renderNextQuestion renderFeedback :
      String → String → String → String → Except PyExc String)
    (pq cr rh jd : String) (timeout : Rat) :
    okOrIAE (get_next_question api renderNextQuestion pq cr rh jd) ∧
    okOrIAE (get_feedback_of_candidate_response api renderFeedback pq cr jd rh) ∧
    okOrIAE (analyze_candidate_response_and_generate_new_question api dur
      renderFeedback renderNextQuestion pq cr jd rh timeout) ∧
    (∀ e, renderNextQuestion pq cr rh jd = Except.error e →
      get_next_question api renderNextQuestion pq cr rh jd =
        Except.error
          (PyExc.interviewAnalysisError
            ("Question generation failed: " ++ strExc e))) ∧
    (∀ p e, renderNextQuestion pq cr rh jd = Except.ok p →
      api p = Except.error e →
      get_next_question api renderNextQuestion pq cr rh jd =
        Except.error
          (PyExc.interviewAnalysisError
            ("Question generation failed: Failed to get LLM response: Gemini API call failed: " ++
              strExc e))) ∧
    (∀ p t, renderNextQuestion pq cr rh jd = Except.ok p →
      api p = Except.ok t → parse_json_response t = PyValue.none →
      get_next_question api renderNextQuestion pq cr rh jd =
        Except.error
          (PyExc.interviewAnalysisError
            "Question generation failed: Failed to get LLM response: LLM returned None instead of valid JSON")) ∧
    (∀ e, renderFeedback pq cr jd rh = Except.error e →
      get_feedback_of_candidate_response api renderFeedback pq cr jd rh =
        Except.error
          (PyExc.interviewAnalysisError
            ("Feedback generation failed: " ++ strExc e))) ∧
    (∀ p e, renderFeedback pq cr jd rh = Except.ok p →
      api p = Except.error e →
      get_feedback_of_candidate_response api renderFeedback pq cr jd rh =
        Except.error
          (PyExc.interviewAnalysisError
            ("Feedback generation failed: Failed to get LLM response: Gemini API call failed: " ++
              strExc e))) ∧
    (∀ e, renderFeedback pq cr jd rh = Except.error e → 0 ≤ timeout →
      0 ≤ taskTime (renderNextQuestion pq cr rh jd) dur →
      analyze_candidate_response_and_generate_new_question api dur
        renderFeedback renderNextQuestion pq cr jd rh timeout =
        Except.error
          (PyExc.interviewAnalysisError
            ("Response analysis failed: Feedback generation failed: " ++ strExc e))) := by
  refine ⟨wrapOkOrIAE _ _, wrapOkOrIAE _ _, ?_, ?_, ?_, ?_, ?_, ?_, ?_⟩
  · simp only [analyze_candidate_response_and_generate_new_question]
    split
    · exact Or.inr ⟨_, rfl⟩
    · split
      · exact Or.inl ⟨_, rfl⟩
      · exact Or.inr ⟨_, rfl⟩
      · exact Or.inr ⟨_, rfl⟩
      · exact Or.inr ⟨_, rfl⟩
  · intro e hRe
    simp only [get_next_question, hRe]
  · intro p e hRe hApi
    simp only [get_next_question, _make_llm_call_async, get_response_from_llm,
      hRe, hApi, strExc]
    simp only [strAppend_assoc]
    rfl
  · intro p t hRe hApi hParse
    simp only [get_next_question, _make_llm_call_async, get_response_from_llm,
      hRe, hApi, hParse, _safe_json_parse, strExc]
    rfl
  · intro e hRe
    simp only [get_feedback_of_candidate_response, hRe]
  · intro p e hRe hApi
    simp only [get_feedback_of_candidate_response, _make_llm_call_async,
      get_response_from_llm, hRe, hApi, strExc]
    simp only [strAppend_assoc]
    rfl
  · intro e hRe h0t h0N
    have hFB : get_feedback_of_candidate_response api renderFeedback pq cr jd rh =
        Except.error
          (PyExc.interviewAnalysisError
            ("Feedback generation failed: " ++ strExc e)) := by
      simp only [get_feedback_of_candidate_response, hRe]
    have htF : taskTime (renderFeedback pq cr jd rh) dur = 0 := by
      rw [hRe]; rfl
    simp only [analyze_candidate_response_and_generate_new_question, hFB, htF]
    cases hN : get_next_question api renderNextQuestion pq cr rh jd with
    | ok n =>
      simp only [gatherJoinTime]
      rw [if_neg (not_lt.mpr h0t)]
      simp only [strExc, strAppend_assoc]
      rfl
    | error e2 =>
      simp only [gatherJoinTime, if_pos h0N]
      rw [if_neg (not_lt.mpr h0t)]
      simp only [strExc, strAppend_assoc]
      rfl

/-- A transport that always fails the way an HTTP client library would. -/
def apiQuota : String → Except PyExc String :=
  fun _ => Except.error (PyExc.other "HttpError" "quota exceeded")

/-- A renderer that always fails, as `str.format` would on a bad
template. -/
def renderBroken : String → String → String → String → Except PyExc String :=
  fun _ _ _ _ => Except.error (PyExc.valueError "missing template key")

/-- **C1 witness.** A failing transport and a failing renderer each
surface as an `InterviewAnalysisError` with the cause's message embedded,
in `get_next_question`, `get_feedback_of_candidate_response` and the
combined operation. -/
theorem claim1_witness :
    okOrIAE (get_next_question apiQuota renderNQ_W "a" "b" "c" "d") ∧
    (get_next_question apiQuota renderNQ_W "a" "b" "c" "d" =
      Except.error
        (PyExc.interviewAnalysisError
          "Question generation failed: Failed to get LLM response: Gemini API call failed: quota exceeded")) ∧
    (get_feedback_of_candidate_response apiQuota renderBroken "a" "b" "c" "d" =
      Except.error
        (PyExc.interviewAnalysisError
          "Feedback generation failed: missing template key")) ∧
    (analyze_candidate_response_and_generate_new_question apiQuota (fun _ => 1)
        renderBroken renderNQ_W "a" "b" "c" "d" 30 =
      Except.error
        (PyExc.interviewAnalysisError
          "Response analysis failed: Feedback generation failed: missing template key")) := by
  refine ⟨?_, ?_, ?_, ?_⟩
  · exact (claim1_single_error_kind apiQuota (fun _ => 1) renderNQ_W renderBroken
      "a" "b" "c" "d" 30).1
  · exact (claim1_single_error_kind apiQuota (fun _ => 1) renderNQ_W renderBroken
      "a" "b" "c" "d" 30).2.2.2.2.1 "PN" (PyExc.other "HttpError" "quota exceeded")
      rfl rfl
  · exact (claim1_single_error_kind apiQuota (fun _ => 1) renderNQ_W renderBroken
      "a" "b" "c" "d" 30).2.2.2.2.2.2.1 (PyExc.valueError "missing template key") rfl
  · exact (claim1_single_error_kind apiQuota (fun _ => 1) renderNQ_W renderBroken
      "a" "b" "c" "d" 30).2.2.2.2.2.2.2.2 (PyExc.valueError "missing template key")
      rfl (by decide) (by decide)

/-! ## Claims about the normalizer -/

/-- A JSON document that starts with `{` can only parse to an object:
the `'{'` branch of `parseValue` wraps every success in `.dict`. -/
theorem parseValue_brace (fuel : Nat) (r rest : Chars) (v : PyValue)
    (h : parseValue (fuel + 1) ('{' :: r) = Option.some (v, rest)) :
    ∃ kvs, v = PyValue.dict kvs := by
  simp only [parseValue, reduceIte] at h
  split at h
  · exact ⟨[], by injection h with h1; injection h1 with h2 _; exact h2.symm⟩
  · split at h
    · rename_i kvs r2 heq
      exact ⟨kvs, by injection h with h1; injection h1 with h2 _; exact h2.symm⟩
    · exact absurd h (by simp)

/-- `{` is not JSON whitespace. -/
theorem skipWs_brace (s : Chars) : skipWs ('{' :: s) = '{' :: s := by
  simp [skipWs, isJsonWs]

/-- `json.loads` on text starting with `{` yields a dict if it succeeds. -/
theorem json_loads_brace_dict (s : Chars) (v : PyValue)
    (h : json_loads ('{' :: s) = Option.some v) :
    ∃ kvs, v = PyValue.dict kvs := by
  unfold json_loads at h
  rw [skipWs_brace] at h
  revert h
  cases hp : parseValue (('{' :: s).length + 1) ('{' :: s) with
  | none => intro h; exact absurd h (by simp)
  | some p =>
    intro h
    have : ∃ kvs, p.1 = PyValue.dict kvs := by
      have : ('{' :: s).length + 1 = s.length + 1 + 1 := by simp
      rw [this] at hp
      exact parseValue_brace (s.length + 1) s p.2 p.1 (by rw [hp])
    rcases this with ⟨kvs, hk⟩
    split at h
    · rename_i v2 r3 heq
      have hv2 : v2 = p.1 := by
        have h2 := heq.symm
        injection h2 with h1
        rw [← h1]
      split at h
      · injection h with h1
        exact ⟨kvs, by rw [← h1, hv2, hk]⟩
      · exact absurd h (by simp)
    · exact absurd h (by simp)

/-- Dropping up to the first occurrence of a present character exposes
that character. -/
theorem drop_firstIdx (c : Char) (s : Chars) (h : c ∈ s) :
    ∃ t, s.drop (firstIdx c s) = c :: t := by
  induction s with
  | nil => cases h
  | cons x r ih =>
    by_cases hx : x = c
    · subst hx
      exact ⟨r, by simp [firstIdx]⟩
    · rcases List.mem_cons.mp h with h1 | h1
      · exact absurd h1.symm hx
      · obtain ⟨t, ht⟩ := ih h1
        refine ⟨t, ?_⟩
        simp only [firstIdx, if_neg hx, List.drop_succ_cons]
        exact ht

/-- The brace-extraction slice is empty or starts with `{`. -/
theorem slice_shape (s : Chars) (b : Nat) (h : '{' ∈ s) :
    pySlice s (firstIdx '{' s) b = [] ∨
    ∃ t, pySlice s (firstIdx '{' s) b = '{' :: t := by
  obtain ⟨t, ht⟩ := drop_firstIdx '{' s h
  unfold pySlice
  rw [ht]
  cases hk : b - firstIdx '{' s with
  | zero => left; simp
  | succ k => right; exact ⟨t.take k, by simp⟩

/-- `parse_json_response` can only produce Python `None` or a dict. -/
theorem parse_json_response_shape (t : String) :
    parse_json_response t = PyValue.none ∨
    ∃ kvs, parse_json_response t = PyValue.dict kvs := by
  simp only [parse_json_response]
  split
  · rename_i hcond
    rcases slice_shape _ (lastIdx ('}')
        (pyStrip (removeAll ("```".data) (removeAll ("```json".data) t.data))) + 1)
        hcond.1 with hsl | ⟨t', hsl⟩
    · rw [hsl]; left; rfl
    · rw [hsl]
      cases hjl : json_loads ('{' :: t') with
      | none => left; rfl
      | some v =>
        obtain ⟨kvs, hk⟩ := json_loads_brace_dict t' v hjl
        right
        exact ⟨kvs, by rw [hk]⟩
  · left; rfl

/-- **C2.** For every raw gateway string, `normalize`
(`parse_json_response` then `_safe_json_parse`) either returns a mapping
or fails with the `MalformedOutput`-class `InterviewAnalysisError`
(`"LLM returned None instead of valid JSON"`); it never returns a JSON
array, a scalar, or null at the top level. -/
theorem claim2_normalize_dict_or_malformed (s : String) :
    (∃ kvs, normalize s = Except.ok (PyValue.dict kvs)) ∨
    normalize s =
      Except.error
        (PyExc.interviewAnalysisError "LLM returned None instead of valid JSON") := by
  rcases parse_json_response_shape s with h | ⟨kvs, h⟩
  · right; simp [normalize, h, _safe_json_parse]
  · left; exact ⟨kvs, by simp [normalize, h, _safe_json_parse]⟩

/-! ## Claim C3: recovery of wrapped JSON -/

/-- `removeAllF` on the empty string is the empty string, for any fuel. -/
theorem removeAllF_nil (pat : Chars) (fuel : Nat) : removeAllF pat fuel [] = [] := by
  cases fuel with
  | zero => rfl
  | succ f =>
    cases pat with
    | nil => simp [removeAllF, List.isPrefixOf]
    | cons p pt => simp [removeAllF, List.isPrefixOf]

/-- Fuel irrelevance for `removeAllF`: any fuel of at least the string
length gives the same result. -/
theorem removeAllF_congr (pat : Chars) :
    ∀ (f1 : Nat) (s : Chars) (f2 : Nat), s.length ≤ f1 → s.length ≤ f2 →
      removeAllF pat f1 s = removeAllF pat f2 s := by
  intro f1
  induction f1 with
  | zero =>
    intro s f2 h1 _
    have : s = [] := List.length_eq_zero.mp (Nat.le_zero.mp h1)
    subst this
    rw [removeAllF_nil, removeAllF_nil]
  | succ g1 ih =>
    intro s f2 h1 h2
    cases s with
    | nil => rw [removeAllF_nil, removeAllF_nil]
    | cons c r =>
      cases f2 with
      | zero => exact absurd h2 (by simp)
      | succ g2 =>
        by_cases hpre : (pat ≠ [] && pat.isPrefixOf (c :: r)) = true
        · have hplen : 1 ≤ pat.length := by
            cases pat with
            | nil => simp at hpre
            | cons _ _ => simp
          have hle : pat.length ≤ (c :: r).length := by
            have h3 := (Bool.and_eq_true _ _).mp hpre |>.2
            exact (List.isPrefixOf_iff_prefix.mp h3).length_le
          simp only [removeAllF, hpre, if_true]
          apply ih
          · simp only [List.length_drop, List.length_cons]
            simp only [List.length_cons] at h1
            omega
          · simp only [List.length_drop, List.length_cons]
            simp only [List.length_cons] at h2
            omega
        · simp only [removeAllF]
          rw [if_neg hpre, if_neg hpre]
          congr 1
          apply ih
          · simp only [List.length_cons] at h1; omega
          · simp only [List.length_cons] at h2; omega

/-- The recursive unfolding of `removeAll` (Python `str.replace(pat, "")`). -/
theorem removeAll_eq (pat s : Chars) :
    removeAll pat s =
      if pat ≠ [] ∧ pat.isPrefixOf s then removeAll pat (s.drop pat.length)
      else
        match s with
        | [] => []
        | c :: r => c :: removeAll pat r := by
  by_cases hc : pat ≠ [] ∧ pat.isPrefixOf s
  · rw [if_pos hc]
    cases s with
    | nil =>
      rcases hc with ⟨hne, hp⟩
      cases pat with
      | nil => exact absurd rfl hne
      | cons _ _ => simp [List.isPrefixOf] at hp
    | cons c r =>
      have hplen : 1 ≤ pat.length := by
        rcases hc with ⟨hne, _⟩
        cases pat with
        | nil => exact absurd rfl hne
        | cons _ _ => simp
      have hle : pat.length ≤ (c :: r).length :=
        (List.isPrefixOf_iff_prefix.mp hc.2).length_le
      have hbool : (pat ≠ [] && pat.isPrefixOf (c :: r)) = true := by
        simp [hc.1, hc.2]
      unfold removeAll
      have : (c :: r).length = ((c :: r).length - 1) + 1 := by
        simp only [List.length_cons]; omega
      rw [this]
      simp only [removeAllF, hbool, if_true]
      apply removeAllF_congr
      · simp only [List.length_drop, List.length_cons]
        simp only [List.length_cons] at hle
        omega
      · simp only [List.length_drop]
        omega
  · rw [if_neg hc]
    cases s with
    | nil => rfl
    | cons c r =>
      have hbool : (pat ≠ [] && pat.isPrefixOf (c :: r)) = false := by
        rcases Decidable.not_and_iff_or_not.mp hc with h | h
        · simp at h
          simp [h, List.isPrefixOf]
        · simp [h]
      unfold removeAll
      have h2 : (c :: r).length = r.length + 1 := by simp
      rw [h2]
      simp only [removeAllF, hbool, if_false]
      rfl


/-- `removeAll` on the empty string. -/
theorem removeAll_nil (pat : Chars) : removeAll pat [] = [] := rfl

/-- `removeAll` steps over a character when no occurrence starts there. -/
theorem removeAll_cons_neg (pat : Chars) (c : Char) (r : Chars)
    (h : ¬ (pat ≠ [] ∧ pat.isPrefixOf (c :: r))) :
    removeAll pat (c :: r) = c :: removeAll pat r := by
  rw [removeAll_eq, if_neg h]

/-- Deleting occurrences of a pattern whose first character does not
occur in `a` leaves `a` untouched: no occurrence can start inside `a`. -/
theorem removeAll_append_left (p : Char) (pt a b : Chars) (hpa : p ∉ a) :
    removeAll (p :: pt) (a ++ b) = a ++ removeAll (p :: pt) b := by
  induction a with
  | nil => simp
  | cons c a' ih =>
    have hnc : ¬ ((p :: pt) ≠ [] ∧ (p :: pt).isPrefixOf (c :: (a' ++ b))) := by
      rintro ⟨_, hp⟩
      simp only [List.isPrefixOf, Bool.and_eq_true, beq_iff_eq] at hp
      exact hpa (hp.1 ▸ List.mem_cons_self _ _)
    rw [List.cons_append, removeAll_cons_neg _ _ _ hnc]
    have hpa' : p ∉ a' := fun h => hpa (List.mem_cons_of_mem _ h)
    rw [ih hpa', List.cons_append]

/-- Deleting occurrences distributes over a split whose right part
starts with a character that is not in the pattern: no occurrence can
span the boundary. -/
theorem removeAll_append_split (pat : Chars) (hpat : pat ≠ []) (d : Char)
    (hd : d ∉ pat) :
    ∀ (n : Nat) (a b' : Chars), a.length ≤ n →
      removeAll pat (a ++ d :: b') =
        removeAll pat a ++ removeAll pat (d :: b') := by
  intro n
  induction n with
  | zero =>
    intro a b' hlen
    have : a = [] := List.length_eq_zero.mp (Nat.le_zero.mp hlen)
    subst this
    simp [removeAll_nil]
  | succ g ih =>
    intro a b' hlen
    have hplen : 1 ≤ pat.length := by
      cases pat with
      | nil => exact absurd rfl hpat
      | cons _ _ => simp
    by_cases hp : pat.isPrefixOf (a ++ d :: b') = true
    · by_cases hpa : pat.isPrefixOf a = true
      · have hle : pat.length ≤ a.length :=
          (List.isPrefixOf_iff_prefix.mp hpa).length_le
        rw [removeAll_eq pat (a ++ d :: b'), if_pos ⟨hpat, hp⟩]
        rw [removeAll_eq pat a, if_pos ⟨hpat, hpa⟩]
        rw [List.drop_append_of_le_length hle]
        apply ih
        simp only [List.length_drop]
        omega
      · exfalso
        obtain ⟨u, hu⟩ := List.isPrefixOf_iff_prefix.mp hp
        have hlen2 : a.length < pat.length := by
          by_contra hle
          push_neg at hle
          apply hpa
          apply List.isPrefixOf_iff_prefix.mpr
          have h1 : pat = (a ++ d :: b').take pat.length := by
            rw [← hu, List.take_left]
          rw [List.take_append_of_le_length hle] at h1
          rw [h1]
          exact List.take_prefix _ _
        have hpateq : pat = (a ++ d :: b').take pat.length := by
          rw [← hu, List.take_left]
        have : d ∈ pat := by
          rw [hpateq, List.take_append_eq_append_take]
          apply List.mem_append_right
          cases hpl : pat.length - a.length with
          | zero => omega
          | succ k =>
            rw [List.take_succ_cons]
            exact List.mem_cons_self _ _
        exact hd this
    · cases a with
      | nil =>
        simp [removeAll_nil]
      | cons c a' =>
        have hform : c :: a' ++ d :: b' = c :: (a' ++ d :: b') :=
          List.cons_append _ _ _
        have hnc1 : ¬ (pat ≠ [] ∧ pat.isPrefixOf (c :: (a' ++ d :: b'))) := by
          rintro ⟨_, h1⟩
          rw [← hform] at h1
          exact absurd h1 hp
        have hnc2 : ¬ (pat ≠ [] ∧ pat.isPrefixOf (c :: a')) := by
          rintro ⟨_, h1⟩
          apply hp
          apply List.isPrefixOf_iff_prefix.mpr
          exact (List.isPrefixOf_iff_prefix.mp h1).trans (List.prefix_append _ _)
        rw [hform, removeAll_cons_neg _ _ _ hnc1,
          removeAll_cons_neg _ _ _ hnc2, List.cons_append]
        congr 1
        apply ih
        simp only [List.length_cons] at hlen
        omega

/-- Characters of `removeAll pat s` are characters of `s` (fueled form). -/
theorem mem_removeAllN (pat : Chars) (c : Char) :
    ∀ (n : Nat) (s : Chars), s.length ≤ n → c ∈ removeAll pat s → c ∈ s := by
  intro n
  induction n with
  | zero =>
    intro s hlen hc
    have : s = [] := List.length_eq_zero.mp (Nat.le_zero.mp hlen)
    subst this
    simpa [removeAll_nil] using hc
  | succ g ih =>
    intro s hlen hc
    by_cases hb : pat ≠ [] ∧ pat.isPrefixOf s
    · rw [removeAll_eq, if_pos hb] at hc
      have hplen : 1 ≤ pat.length := by
        cases pat with
        | nil => exact absurd rfl hb.1
        | cons _ _ => simp
      have h2 := ih (s.drop pat.length) (by
        simp only [List.length_drop]
        omega) hc
      exact List.mem_of_mem_drop h2
    · rw [removeAll_eq, if_neg hb] at hc
      cases s with
      | nil => simpa using hc
      | cons x r =>
        have hc2 : c ∈ x :: removeAll pat r := hc
        rcases List.mem_cons.mp hc2 with h | h
        · exact h ▸ List.mem_cons_self _ _
        · refine List.mem_cons_of_mem _ (ih r ?_ h)
          simp only [List.length_cons] at hlen
          omega

/-- Characters of `removeAll pat s` are characters of `s`. -/
theorem mem_removeAll (pat s : Chars) (c : Char) (h : c ∈ removeAll pat s) :
    c ∈ s :=
  mem_removeAllN pat c s.length s (Nat.le_refl _) h


/-- `dropWhile` over an append whose right part starts with a
non-dropped character only affects the left part. -/
theorem dropWhile_decomp (p rest : Chars) (c : Char) (t : Chars)
    (hrest : rest = c :: t) (hc : isPySpace c = false) :
    List.dropWhile isPySpace (p ++ rest) = List.dropWhile isPySpace p ++ rest := by
  subst hrest
  rw [List.dropWhile_append]
  split
  · rename_i hemp
    simp [List.dropWhile_cons, hc, List.isEmpty_iff.mp hemp]
  · rfl

/-- `str.strip()` of `prose ++ json ++ prose` only trims the two prose
sides when the JSON text starts with `{` and ends with `}`. -/
theorem pyStrip_decomp (p jt jl q : Chars) (hj : '{' :: jt = jl ++ ['}']) :
    pyStrip (p ++ ('{' :: jt) ++ q) =
      (List.dropWhile isPySpace p) ++ ('{' :: jt) ++
        (List.dropWhile isPySpace q.reverse).reverse := by
  unfold pyStrip
  have h1 : p ++ ('{' :: jt) ++ q = p ++ ('{' :: (jt ++ q)) := by simp
  rw [h1, dropWhile_decomp p ('{' :: (jt ++ q)) '{' (jt ++ q) rfl (by decide)]
  have h2 : (List.dropWhile isPySpace p ++ ('{' :: (jt ++ q))).reverse =
      q.reverse ++ ('}' :: (jl.reverse ++ (List.dropWhile isPySpace p).reverse)) := by
    rw [show ('{' : Char) :: (jt ++ q) = ('{' :: jt) ++ q by simp, hj]
    simp [List.reverse_append]
  rw [h2, dropWhile_decomp q.reverse ('}' :: (jl.reverse ++ (List.dropWhile isPySpace p).reverse)) '}'
    (jl.reverse ++ (List.dropWhile isPySpace p).reverse) rfl (by decide)]
  rw [hj]
  simp [List.reverse_append]

/-- `str.index` finds the boundary when the prefix misses the character. -/
theorem firstIdx_append (c : Char) (P : Chars) (hP : c ∉ P) (t : Chars) :
    firstIdx c (P ++ c :: t) = P.length := by
  induction P with
  | nil => simp [firstIdx]
  | cons x P' ih =>
    have hx : x ≠ c := fun h => hP (h ▸ List.mem_cons_self _ _)
    simp [firstIdx, hx, ih (fun h => hP (List.mem_cons_of_mem _ h))]

/-- `str.rindex` of `}` finds the end of the JSON text when the suffix
has no `}`. -/
theorem lastIdx_append (P jl q : Chars) (hq : '}' ∉ q) :
    lastIdx ('}') (P ++ (jl ++ ['}']) ++ q) = P.length + jl.length := by
  unfold lastIdx
  have hrev : (P ++ (jl ++ ['}']) ++ q).reverse =
      q.reverse ++ ('}' :: (jl.reverse ++ P.reverse)) := by
    simp
  rw [hrev, firstIdx_append ('}') q.reverse
    (fun h => hq (List.mem_reverse.mp h)) (jl.reverse ++ P.reverse)]
  simp only [List.length_append, List.length_cons, List.length_reverse,
    List.length_nil]
  omega

/-- The brace-to-brace slice of `P ++ j ++ q` recovers `j` exactly. -/
theorem slice_extract (P j q : Chars) (hlen : 1 ≤ j.length) :
    pySlice (P ++ j ++ q) P.length (P.length + j.length - 1 + 1) = j := by
  unfold pySlice
  have h1 : P.length + j.length - 1 + 1 - P.length = j.length := by omega
  rw [h1, List.append_assoc, List.drop_left, List.take_left]


/-- **C3 (amended).** For every input `pre ++ json ++ post` whose JSON
object text starts with `{`, ends with `}`, contains no backtick, and
parses to the object `kvs`, where `pre` contains no `{` and `post` no
`}` (both may contain code fences and arbitrary other prose),
`normalize` recovers exactly the encoded object. -/
theorem claim3_amended_recovery (pre jt jl post : Chars)
    (kvs : List (String × PyValue))
    (hpre : '{' ∉ pre) (hpost : '}' ∉ post)
    (hj : '{' :: jt = jl ++ ['}'])
    (hbt : '`' ∉ ('{' :: jt))
    (hload : json_loads ('{' :: jt) = Option.some (PyValue.dict kvs)) :
    normalize (String.mk (pre ++ ('{' :: jt) ++ post)) =
      Except.ok (PyValue.dict kvs) := by
  have hpat1 : ("```json".data : Chars) = '`' :: ("``json".data) := rfl
  have hpat2 : ("```".data : Chars) = '`' :: ("``".data) := rfl
  -- first removal: "```json"
  have hR1 : removeAll ("```json".data) (pre ++ ('{' :: jt) ++ post) =
      removeAll ("```json".data) pre ++
        (('{' :: jt) ++ removeAll ("```json".data) post) := by
    have ha : pre ++ ('{' :: jt) ++ post = pre ++ ('{' :: (jt ++ post)) := by
      simp
    rw [ha, removeAll_append_split ("```json".data) (by decide) '{' (by decide)
      pre.length pre (jt ++ post) (Nat.le_refl _)]
    congr 1
    rw [show ('{' : Char) :: (jt ++ post) = ('{' :: jt) ++ post from rfl]
    rw [hpat1, removeAll_append_left '`' ("``json".data) ('{' :: jt) post hbt]
  -- second removal: "```"
  have hR2 : removeAll ("```".data)
      (removeAll ("```json".data) pre ++
        (('{' :: jt) ++ removeAll ("```json".data) post)) =
      removeAll ("```".data) (removeAll ("```json".data) pre) ++
        (('{' :: jt) ++
          removeAll ("```".data) (removeAll ("```json".data) post)) := by
    have ha : removeAll ("```json".data) pre ++
        (('{' :: jt) ++ removeAll ("```json".data) post) =
        removeAll ("```json".data) pre ++
          ('{' :: (jt ++ removeAll ("```json".data) post)) := by
      simp
    rw [ha, removeAll_append_split ("```".data) (by decide) '{' (by decide)
      (removeAll ("```json".data) pre).length (removeAll ("```json".data) pre)
      (jt ++ removeAll ("```json".data) post) (Nat.le_refl _)]
    congr 1
    rw [show ('{' : Char) :: (jt ++ removeAll ("```json".data) post) =
      ('{' :: jt) ++ removeAll ("```json".data) post from rfl]
    rw [hpat2, removeAll_append_left '`' ("``".data) ('{' :: jt)
      (removeAll ("```json".data) post) hbt]
  -- names for the two stripped remnants
  have hP2 : '{' ∉ removeAll ("```".data) (removeAll ("```json".data) pre) :=
    fun h => hpre (mem_removeAll _ _ _ (mem_removeAll _ _ _ h))
  have hQ2 : '}' ∉ removeAll ("```".data) (removeAll ("```json".data) post) :=
    fun h => hpost (mem_removeAll _ _ _ (mem_removeAll _ _ _ h))
  -- strip
  have hstrip : pyStrip
      (removeAll ("```".data) (removeAll ("```json".data) pre) ++
        ('{' :: jt) ++
        removeAll ("```".data) (removeAll ("```json".data) post)) =
      List.dropWhile isPySpace
          (removeAll ("```".data) (removeAll ("```json".data) pre)) ++
        ('{' :: jt) ++
        (List.dropWhile isPySpace
          (removeAll ("```".data) (removeAll ("```json".data) post)).reverse).reverse :=
    pyStrip_decomp _ jt jl _ hj
  have hP3 : '{' ∉ List.dropWhile isPySpace
      (removeAll ("```".data) (removeAll ("```json".data) pre)) :=
    fun h => hP2 ((List.dropWhile_sublist _).mem h)
  have hQ3 : '}' ∉ (List.dropWhile isPySpace
      (removeAll ("```".data) (removeAll ("```json".data) post)).reverse).reverse :=
    fun h => hQ2 (by
      have h1 := List.mem_reverse.mp h
      have h2 := (List.dropWhile_sublist _).mem h1
      exact List.mem_reverse.mp h2)
  -- abbreviations
  generalize hPn : List.dropWhile isPySpace
    (removeAll ("```".data) (removeAll ("```json".data) pre)) = P3 at hstrip hP3
  generalize hQn : (List.dropWhile isPySpace
    (removeAll ("```".data) (removeAll ("```json".data) post)).reverse).reverse = Q3
    at hstrip hQ3
  -- the clean string
  have hclean : pyStrip (removeAll ("```".data)
      (removeAll ("```json".data) ((String.mk (pre ++ ('{' :: jt) ++ post)).data))) =
      P3 ++ ('{' :: jt) ++ Q3 := by
    rw [show (String.mk (pre ++ ('{' :: jt) ++ post)).data =
      pre ++ ('{' :: jt) ++ post from rfl]
    rw [hR1, show removeAll ("```json".data) pre ++
        (('{' :: jt) ++ removeAll ("```json".data) post) =
        removeAll ("```json".data) pre ++
          ('{' :: jt) ++ removeAll ("```json".data) post from by simp]
    rw [show removeAll ("```".data) (removeAll ("```json".data) pre ++
        ('{' :: jt) ++ removeAll ("```json".data) post) =
        removeAll ("```".data) (removeAll ("```json".data) pre ++
          (('{' :: jt) ++ removeAll ("```json".data) post)) from by
      congr 1
      simp]
    rw [hR2, show removeAll ("```".data) (removeAll ("```json".data) pre) ++
        (('{' :: jt) ++ removeAll ("```".data) (removeAll ("```json".data) post)) =
        removeAll ("```".data) (removeAll ("```json".data) pre) ++
          ('{' :: jt) ++ removeAll ("```".data) (removeAll ("```json".data) post)
        from by simp]
    rw [hstrip]
  -- membership of the braces in the clean string
  have hmem1 : '{' ∈ P3 ++ ('{' :: jt) ++ Q3 := by
    simp
  have hmem2 : '}' ∈ P3 ++ ('{' :: jt) ++ Q3 := by
    rw [hj]
    simp
  -- indices
  have hfi : firstIdx '{' (P3 ++ ('{' :: jt) ++ Q3) = P3.length := by
    rw [show P3 ++ ('{' :: jt) ++ Q3 = P3 ++ ('{' :: (jt ++ Q3)) from by simp]
    exact firstIdx_append '{' P3 hP3 (jt ++ Q3)
  have hli : lastIdx ('}') (P3 ++ ('{' :: jt) ++ Q3) = P3.length + jl.length := by
    rw [hj]
    exact lastIdx_append P3 jl Q3 hQ3
  have hjlen : ('{' :: jt).length = jl.length + 1 := by
    rw [hj]
    simp
  -- the slice is the JSON text
  have hsl : pySlice (P3 ++ ('{' :: jt) ++ Q3) P3.length (P3.length + jl.length + 1) =
      '{' :: jt := by
    have h1 : P3.length + jl.length + 1 =
        P3.length + ('{' :: jt).length - 1 + 1 := by
      rw [hjlen]
      omega
    rw [h1]
    exact slice_extract P3 ('{' :: jt) Q3 (by simp)
  -- put everything together
  simp only [normalize, parse_json_response, hclean, hfi, hli]
  rw [if_pos ⟨hmem1, hmem2⟩, hsl, hload]
  rfl


/-- **C3 counterexample.** The input `{"a": "```"}` encodes a valid
JSON object (with no surrounding prose at all), yet `normalize` returns
a different object: the fence removal deletes the backticks inside the
string value, so the claim as stated is false. -/
theorem claim3_counterexample :
    json_loads (("\x7b\"a\": \"```\"\x7d").data) =
      Option.some (PyValue.dict [("a", PyValue.str "```")]) ∧
    normalize ("\x7b\"a\": \"```\"\x7d") =
      Except.ok (PyValue.dict [("a", PyValue.str "")]) ∧
    ("" : String) ≠ "```" :=
  ⟨rfl, rfl, by decide⟩

/-- **C3 witness.** A fenced JSON object surrounded by prose is
recovered exactly. -/
theorem claim3_witness :
    normalize ("Sure! Here is the JSON:\n```json\n\x7b\"a\": 1\x7d\n``` Thanks!") =
      Except.ok (PyValue.dict [("a", PyValue.int 1)]) := by
  have h := claim3_amended_recovery ("Sure! Here is the JSON:\n```json\n".data)
    ("\"a\": 1\x7d".data) ("\x7b\"a\": 1".data) ("\n``` Thanks!".data)
    [("a", PyValue.int 1)]
    (by decide) (by decide) (by decide) (by decide) (by rfl)
  have heq : ("Sure! Here is the JSON:\n```json\n\x7b\"a\": 1\x7d\n``` Thanks!" : String) =
      String.mk (("Sure! Here is the JSON:\n```json\n".data) ++
        ('{' :: ("\"a\": 1\x7d".data)) ++ ("\n``` Thanks!".data)) := by rfl
  rw [heq]
  exact h


end AIPrep
